import Mathlib

/-!
Verification development for the Streampro "Resolution & Adaptive Fallback
Playback Engine" (resolver.js v2.1, config.js, player.js).

The JavaScript code is shallowly embedded as executable Lean definitions.
Platform facilities that the code calls but that are not part of the
repository are made explicit inputs:

* the WHATWG URL parser (`new URL(u)`) is an oracle `UrlOracle` returning
  the parsed `hostname`/`pathname` (or `none` when the constructor throws);
* `video.canPlayType(...)` probe results are a record `Probes` (the source
  queries exactly three codec strings);
* every `fetch`/timeout outcome is an explicit argument (`Option` of the
  response; `none` models a transport error, abort, or timeout);
* `encodeURIComponent`/`decodeURIComponent` are implemented directly
  (percent-encoding of UTF-8 bytes, as specified for those builtins).

JavaScript value quirks are preserved: nullable strings are `Option String`
(`JStr`), truthiness (`""`/`null` falsy) is `truthyO`, `x || y` is
`jsOrStr`/`jsOrNull`, and template-literal stringification of `null` is
`jsToStr`.  Media times (`currentTime`, `duration`) are modelled as `ℚ`;
a non-finite duration is `none`.
-/

/-- A JavaScript string-or-null value. -/
abbrev JStr := Option String

/-- JS truthiness of a string-or-null value: `null` and `""` are falsy. -/
def truthyO (o : JStr) : Bool :=
  match o with
  | some s => s ≠ ""
  | none => false

/-- JS `x || d` producing a plain string (used where the code guarantees a string). -/
def jsOrStr (o : JStr) (d : String) : String :=
  match o with
  | some s => if s = "" then d else s
  | none => d

/-- JS `x || null`: keep a truthy string, otherwise `null`. -/
def jsOrNull (o : JStr) : JStr :=
  if truthyO o then o else none

/-- JS `x || null` on an optional number (`0` is falsy). -/
def jsOrNullNat (o : Option Nat) : Option Nat :=
  match o with
  | some 0 => none
  | some n => some n
  | none => none

/-- Template-literal stringification: `null` prints as `"null"`. -/
def jsToStr (o : JStr) : String :=
  match o with
  | some s => s
  | none => "null"

/-- `toLowerCase()` (ASCII, which covers every pattern the code matches). -/
def toLowerStr (s : String) : String :=
  String.mk (s.toList.map Char.toLower)

/-- `toUpperCase()` (ASCII). -/
def toUpperStr (s : String) : String :=
  String.mk (s.toList.map Char.toUpper)

/-- `trim()`: strip leading and trailing whitespace. -/
def trimStr (s : String) : String :=
  String.mk (((s.toList.dropWhile Char.isWhitespace).reverse.dropWhile Char.isWhitespace).reverse)

/-- `s.startsWith(p)`. -/
def startsWithStr (s p : String) : Bool :=
  decide (s.toList.take p.toList.length = p.toList)

/-- `s.endsWith(p)`. -/
def endsWithStr (s p : String) : Bool :=
  decide ((s.toList.reverse.take p.toList.length).reverse = p.toList)

/-- Drop the last `n` characters. -/
def dropRightStr (s : String) (n : Nat) : String :=
  String.mk (s.toList.take (s.toList.length - n))

/-- `split(sep)` for a one-character separator, on character lists. -/
def splitChars (sep : Char) : List Char → List (List Char)
  | [] => [[]]
  | c :: rest =>
    let r := splitChars sep rest
    if c = sep then [] :: r
    else
      match r with
      | h :: t => (c :: h) :: t
      | [] => [[c]]

/-- `s.split(sep)` for a one-character separator. -/
def splitStr (sep : Char) (s : String) : List String :=
  (splitChars sep s.toList).map String.mk

/-- Does `needle` occur at the head of `hay`? -/
def prefixAt (needle hay : List Char) : Bool :=
  decide (hay.take needle.length = needle)

/-- Does `needle` occur anywhere in `hay`? -/
def subSearch (needle : List Char) : List Char → Bool
  | [] => prefixAt needle []
  | c :: rest => prefixAt needle (c :: rest) || subSearch needle rest

/-- `hay.includes(needle)` on strings (substring test). -/
def containsSub (hay needle : String) : Bool :=
  subSearch needle.toList hay.toList

/-- Case-insensitive substring test (for `/.../i` literal regexes). -/
def containsCI (hay needle : String) : Bool :=
  containsSub (toLowerStr hay) (toLowerStr needle)

/-- Does the pattern occur at the head of `s`, followed by `?`, `#`, or end of
input?  Building block for regexes of the shape `/\.ext(\?|#|$)/`. -/
def anchoredHere (pat s : List Char) : Bool :=
  decide (s.take pat.length = pat) &&
    (match s.drop pat.length with
     | [] => true
     | c :: _ => c = '?' || c = '#')

/-- Unanchored search for `pat` followed by `?`, `#`, or end of input. -/
def anchorSearch (pat : List Char) : List Char → Bool
  | [] => anchoredHere pat []
  | c :: rest => anchoredHere pat (c :: rest) || anchorSearch pat rest

/-- config.js `isHLSUrl`: `/\.m3u8(\?|#|$)/i.test(url)`. -/
def isHLSUrl (url : String) : Bool :=
  anchorSearch ".m3u8".toList (toLowerStr url).toList

/-- config.js `isDASHUrl`: `/\.mpd(\?|#|$)/i.test(url)`. -/
def isDASHUrl (url : String) : Bool :=
  anchorSearch ".mpd".toList (toLowerStr url).toList

/-- resolver.js torrent-extension test: `/\.torrent(\?|#|$)/i.test(u)`. -/
def isTorrentUrl (u : String) : Bool :=
  anchorSearch ".torrent".toList (toLowerStr u).toList

/-- resolver.js protocol test `/^https?:\/\//i.test(u)`. -/
def hasProto (u : String) : Bool :=
  startsWithStr (toLowerStr u) "http://" || startsWithStr (toLowerStr u) "https://"

/-- Regex class `[a-zA-Z0-9]`. -/
def isAlnumAscii (c : Char) : Bool :=
  ('a' ≤ c && c ≤ 'z') || ('A' ≤ c && c ≤ 'Z') || ('0' ≤ c && c ≤ '9')

/-- Regex class `\w` = `[A-Za-z0-9_]`. -/
def isWordChar (c : Char) : Bool :=
  isAlnumAscii c || c = '_'

/-- Capture `lit` at the head of `s` followed by a non-empty `[a-zA-Z0-9]+` run
(the greedy capture group of PixelDrainCache.getId's regexes). -/
def pdIdAfter (lit s : List Char) : Option String :=
  if s.take lit.length = lit then
    let run := (s.drop lit.length).takeWhile isAlnumAscii
    if run.isEmpty then none else some (String.mk run)
  else none

/-- Unanchored scan for `lit` followed by an alphanumeric capture. -/
def pdScan (lit : List Char) : List Char → Option String
  | [] => pdIdAfter lit []
  | c :: rest =>
    match pdIdAfter lit (c :: rest) with
    | some r => some r
    | none => pdScan lit rest

namespace PixelDrainCache

/-- store.js `PixelDrainCache.getId`: first
`/pixeldrain\.com\/u\/([a-zA-Z0-9]+)/`, then
`/pixeldrain\.com\/api\/file\/([a-zA-Z0-9]+)/`. -/
def getId (url : String) : JStr :=
  match pdScan "pixeldrain.com/u/".toList url.toList with
  | some r => some r
  | none => pdScan "pixeldrain.com/api/file/".toList url.toList

end PixelDrainCache

/-- Uppercase hex digit of a value `< 16`. -/
def hexDigitU (n : Nat) : Char :=
  if n < 10 then Char.ofNat ('0'.toNat + n) else Char.ofNat ('A'.toNat + (n - 10))

/-- UTF-8 bytes of a code point (as used by `encodeURIComponent`). -/
def utf8BytesOf (c : Char) : List Nat :=
  let n := c.toNat
  if n < 0x80 then [n]
  else if n < 0x800 then [0xC0 + n / 64, 0x80 + n % 64]
  else if n < 0x10000 then [0xE0 + n / 4096, 0x80 + n / 64 % 64, 0x80 + n % 64]
  else [0xF0 + n / 262144, 0x80 + n / 4096 % 64, 0x80 + n / 64 % 64, 0x80 + n % 64]

/-- `encodeURIComponent` leaves `A–Z a–z 0–9 - _ . ! ~ * ' ( )` unescaped. -/
def uriUnreserved (c : Char) : Bool :=
  isAlnumAscii c || c = '-' || c = '_' || c = '.' || c = '!' || c = '~' ||
    c = '*' || c = '\'' || c = '(' || c = ')'

/-- The `encodeURIComponent` builtin: percent-encode UTF-8 bytes of every
reserved character, uppercase hex. -/
def encodeURIComponent (s : String) : String :=
  String.mk <| s.toList.flatMap fun c =>
    if uriUnreserved c then [c]
    else (utf8BytesOf c).flatMap fun b => ['%', hexDigitU (b / 16), hexDigitU (b % 16)]

/-- Hex digit value for `decodeURIComponent` (both letter cases accepted),
written over raw code points. -/
def hexVal (c : Char) : Option Nat :=
  let n := c.toNat
  if 48 ≤ n ∧ n ≤ 57 then some (n - 48)
  else if 97 ≤ n ∧ n ≤ 102 then some (n - 87)
  else if 65 ≤ n ∧ n ≤ 70 then some (n - 55)
  else none

/-- Lex a URI-component into literal characters and `%XX` bytes; `none` models
the `URIError` thrown on a malformed escape. -/
def uriTokens : List Char → Option (List (Sum Char Nat))
  | [] => some []
  | '%' :: a :: b :: rest => do
    let ha ← hexVal a
    let hb ← hexVal b
    let ts ← uriTokens rest
    pure (Sum.inr (ha * 16 + hb) :: ts)
  | '%' :: _ => none
  | c :: rest => do
    let ts ← uriTokens rest
    pure (Sum.inl c :: ts)

/-- Is a byte a UTF-8 continuation byte? -/
def isContByte (b : Nat) : Bool :=
  0x80 ≤ b && b ≤ 0xBF

/-- Turn a scalar value into a `Char` unless it is a surrogate or out of range
(in which case `decodeURIComponent` throws). -/
def scalarChar (n : Nat) : Option Char :=
  if n < 0xD800 || (0xE000 ≤ n && n ≤ 0x10FFFF) then some (Char.ofNat n) else none

/-- Decode the token stream: literal characters pass through; `%XX` byte runs
must form valid UTF-8 sequences. -/
def uriDecodeToks : List (Sum Char Nat) → Option (List Char)
  | [] => some []
  | Sum.inl c :: ts => do pure (c :: (← uriDecodeToks ts))
  | Sum.inr b :: ts =>
    if b < 0x80 then do pure (Char.ofNat b :: (← uriDecodeToks ts))
    else if 0xC0 ≤ b && b ≤ 0xDF then
      match ts with
      | Sum.inr b2 :: ts2 =>
        if isContByte b2 then do
          let c ← scalarChar ((b - 0xC0) * 64 + (b2 - 0x80))
          pure (c :: (← uriDecodeToks ts2))
        else none
      | _ => none
    else if 0xE0 ≤ b && b ≤ 0xEF then
      match ts with
      | Sum.inr b2 :: Sum.inr b3 :: ts2 =>
        if isContByte b2 && isContByte b3 then do
          let c ← scalarChar ((b - 0xE0) * 4096 + (b2 - 0x80) * 64 + (b3 - 0x80))
          pure (c :: (← uriDecodeToks ts2))
        else none
      | _ => none
    else if 0xF0 ≤ b && b ≤ 0xF7 then
      match ts with
      | Sum.inr b2 :: Sum.inr b3 :: Sum.inr b4 :: ts2 =>
        if isContByte b2 && isContByte b3 && isContByte b4 then do
          let c ← scalarChar ((b - 0xF0) * 262144 + (b2 - 0x80) * 4096 +
            (b3 - 0x80) * 64 + (b4 - 0x80))
          pure (c :: (← uriDecodeToks ts2))
        else none
      | _ => none
    else none

/-- The `decodeURIComponent` builtin; `none` models a thrown `URIError`. -/
def decodeURIComponent (s : String) : Option String := do
  let ts ← uriTokens s.toList
  let cs ← uriDecodeToks ts
  pure (String.mk cs)

/-- config.js `PROXY_URL`. -/
def PROXY_URL : String := "https://euphonious-florentine-455517.netlify.app"

/-- `s.replace(/\/$/, "")`: drop one trailing slash. -/
def stripTrailingSlash (s : String) : String :=
  if endsWithStr s "/" then dropRightStr s 1 else s

/-- config.js `buildProxy`, generalised over the configured proxy base (the
source closes over `PROXY_URL`).  The argument may be a JS `null` (it is
stringified by the template literal), and with an empty base the input is
returned unchanged. -/
def buildProxyBase (base : String) (url : JStr) : JStr :=
  if base = "" then url
  else some (stripTrailingSlash base ++ "/?url=" ++ encodeURIComponent (jsToStr url))

/-- config.js `buildProxy` with the configured `PROXY_URL`. -/
def buildProxy (url : JStr) : JStr :=
  buildProxyBase PROXY_URL url

/-- A tiny pattern language covering exactly the regex features used by
config.js's `HOSTS_NEED_RESOLVE` table: literals, `\d*`, and `\w+`.  In that
table every `\d*`/`\w+` is followed by a character outside its class (or
nothing), so greedy matching is exact. -/
inductive Pat where
  | lit (cs : List Char)
  | digitStar
  | wordPlus
deriving Repr

/-- Match a pattern sequence at the head of the input. -/
def matchSeq : List Pat → List Char → Bool
  | [], _ => true
  | Pat.lit cs :: ps, s => decide (s.take cs.length = cs) && matchSeq ps (s.drop cs.length)
  | Pat.digitStar :: ps, s => matchSeq ps (s.dropWhile Char.isDigit)
  | Pat.wordPlus :: ps, s =>
    !(s.takeWhile isWordChar).isEmpty && matchSeq ps (s.dropWhile isWordChar)

/-- Unanchored regex search (`re.test`). -/
def patSearch (ps : List Pat) : List Char → Bool
  | [] => matchSeq ps []
  | c :: rest => matchSeq ps (c :: rest) || patSearch ps rest

/-- config.js `HOSTS_NEED_RESOLVE` — the 32 `/.../i` regexes, in order
(literals lowercased; the input hostname is lowercased before matching). -/
def HOSTS_NEED_RESOLVE : List (List Pat) :=
  [ [Pat.lit "gofile.io".toList],
    [Pat.lit "store".toList, Pat.digitStar, Pat.lit ".gofile.io".toList],
    [Pat.lit "drive.google.com".toList],
    [Pat.lit "docs.google.com".toList],
    [Pat.lit "drive.usercontent.google.com".toList],
    [Pat.lit "mega.nz".toList],
    [Pat.lit "mega.co.nz".toList],
    [Pat.lit "pixeldrain.com".toList],
    [Pat.lit "mediafire.com".toList],
    [Pat.lit "megaup.net".toList],
    [Pat.lit "1fichier.com".toList],
    [Pat.lit "krakenfiles.com".toList],
    [Pat.lit "send.cm".toList],
    [Pat.lit "streamtape.".toList],
    [Pat.lit "strtape.".toList],
    [Pat.lit "doodstream.".toList],
    [Pat.lit "dood.".toList, Pat.wordPlus],
    [Pat.lit "filemoon.".toList],
    [Pat.lit "streamwish.".toList],
    [Pat.lit "mp4upload.com".toList],
    [Pat.lit "mixdrop.".toList],
    [Pat.lit "vidoza.".toList],
    [Pat.lit "voe.".toList, Pat.wordPlus],
    [Pat.lit "upstream.".toList],
    [Pat.lit "filelions.".toList],
    [Pat.lit "vtube.".toList],
    [Pat.lit "vtbe.".toList],
    [Pat.lit "hexupload.".toList],
    [Pat.lit "racaty.".toList],
    [Pat.lit "usersdrive.com".toList],
    [Pat.lit "buzzheavier.com".toList],
    [Pat.lit "bfrm.io".toList] ]

/-- The hostname/pathname pair produced by the platform's `new URL(u)`. -/
structure UrlParts where
  hostname : String
  pathname : String
deriving Repr, DecidableEq

/-- Oracle for the platform URL parser: `none` models the constructor
throwing on a malformed URL. -/
abbrev UrlOracle := String → Option UrlParts

/-- config.js `hostNeedsResolve`: lowercase the parsed hostname and test the
`HOSTS_NEED_RESOLVE` regexes; a parse failure is caught and yields `false`. -/
def hostNeedsResolve (P : UrlOracle) (url : String) : Bool :=
  match P url with
  | some parts => HOSTS_NEED_RESOLVE.any fun ps => patSearch ps (toLowerStr parts.hostname).toList
  | none => false

/-- The hostname-extraction helper detectProvider opens with (the IIFE
`(() => { try { return new URL(url).hostname.toLowerCase(); } catch { return ""; } })()`):
the lowercased parsed hostname, or `""` when the URL fails to parse. -/
def hostnameOf (P : UrlOracle) (url : String) : String :=
  match P url with
  | some parts => toLowerStr parts.hostname
  | none => ""

/-- resolver.js `detectProvider` (v2.1): the hostname (lowercased, `""` when
the URL fails to parse) runs through the ordered chain of `includes` tests,
then the URL-shape checks, then `"Direct"`. -/
def detectProvider (P : UrlOracle) (url : String) : String :=
  let h := hostnameOf P url
  if containsSub h "gofile.io" then "GoFile"
  else if containsSub h "google.com" || containsSub h "googleusercontent.com" then "Google Drive"
  else if containsSub h "mega.nz" || containsSub h "mega.co.nz" then "MEGA"
  else if containsSub h "pixeldrain.com" then "PixelDrain"
  else if containsSub h "mediafire.com" then "MediaFire"
  else if containsSub h "megaup.net" then "MegaUp"
  else if containsSub h "1fichier.com" then "1Fichier"
  else if containsSub h "krakenfiles.com" then "Krakenfiles"
  else if containsSub h "send.cm" then "Send.cm"
  else if containsSub h "streamtape" || containsSub h "strtape" then "StreamTape"
  else if containsSub h "dood" || containsSub h "ds2play" || containsSub h "d0" then "DoodStream"
  else if containsSub h "filemoon" then "FileMoon"
  else if containsSub h "streamwish" || containsSub h "wish" then "StreamWish"
  else if containsSub h "mp4upload" then "Mp4Upload"
  else if containsSub h "mixdrop" || containsSub h "mixdrp" then "MixDrop"
  else if containsSub h "vidoza" then "Vidoza"
  else if containsSub h "voe." then "Voe"
  else if containsSub h "upstream" then "Upstream"
  else if containsSub h "filelions" || containsSub h "lions" then "FileLions"
  else if containsSub h "vtube" || containsSub h "vtbe" then "VTube"
  else if containsSub h "hexupload" then "HexUpload"
  else if containsSub h "racaty" then "Racaty"
  else if containsSub h "usersdrive" then "UsersDrive"
  else if containsSub h "buzzheavier" || containsSub h "bfrm.io" then "Buzzheavier"
  else if isHLSUrl url then "HLS"
  else if isDASHUrl url then "DASH"
  else "Direct"

/-- `path.lastIndexOf(".")` slice: the extension after the last dot, `""`
when there is no dot. -/
def extOf (s : String) : String :=
  let l := s.toList
  if l.contains '.' then String.mk (l.reverse.takeWhile (· ≠ '.')).reverse else ""

/-- config.js `getExt`: lowercase the parsed pathname, cut at `"?"`, take the
extension after the last dot; a parse failure is caught and yields `""`. -/
def getExt (P : UrlOracle) (url : String) : String :=
  match P url with
  | some parts => extOf ((splitStr '?' (toLowerStr parts.pathname)).headD "")
  | none => ""

/-- config.js `guessName`: the last path segment of the parsed URL, decoded;
any exception (URL parse or `decodeURIComponent`) falls back. -/
def guessName (P : UrlOracle) (url : String) (fallback : String) : String :=
  match P url with
  | some parts =>
    let p := (splitStr '/' parts.pathname).getLastD ""
    if p ≠ "" then
      match decodeURIComponent p with
      | some d => d
      | none => fallback
    else fallback
  | none => fallback

/-- config.js `clamp` (`Math.max(lo, Math.min(hi, n))`), over `ℚ`. -/
def clampQ (n lo hi : ℚ) : ℚ :=
  max lo (min hi n)

/-- Results of the three `video.canPlayType(...)` capability probes issued by
config.js `detectCodecSupport` (HEVC `hvc1.1.6.L93.B0`, Matroska AVC
`avc1.640028`, WebM `vp9`), coerced with `!!`. -/
structure Probes where
  hevc : Bool
  mkvAvc : Bool
  webmVp9 : Bool
deriving Repr, DecidableEq

/-- config.js codec-advice record (`container/codec/canPlay/warning/needsSpecial`). -/
structure CodecInfo where
  container : String
  codec : String
  canPlay : Bool
  warning : JStr
  needsSpecial : Bool
deriving Repr, DecidableEq

/-- Filename heuristic `/x265|h\.?265|hevc/i.test(url)`. -/
def x265Name (url : String) : Bool :=
  containsCI url "x265" || containsCI url "h265" || containsCI url "h.265" || containsCI url "hevc"

/-- Filename heuristic `/10[\-\.]?bit/i.test(url)`. -/
def tenBitName (url : String) : Bool :=
  containsCI url "10bit" || containsCI url "10-bit" || containsCI url "10.bit"

/-- config.js `detectCodecSupport`, with the `canPlayType` probe results made
explicit.  Mirrors the source's sequential mutation of `info`. -/
def detectCodecSupport (pr : Probes) (P : UrlOracle) (url : String) (mimeType : JStr) : CodecInfo :=
  let ext := getExt P url
  let info : CodecInfo :=
    { container := if toUpperStr ext = "" then "unknown" else toUpperStr ext
      codec := "unknown", canPlay := true, warning := none, needsSpecial := false }
  let info :=
    if truthyO mimeType then
      let mt := toLowerStr (jsOrStr mimeType "")
      let info :=
        if containsSub mt "x265" || containsSub mt "hevc" || containsSub mt "hvc1" ||
            containsSub mt "hev1" then
          let canP := pr.hevc
          { info with
            codec := "HEVC/x265"
            canPlay := canP
            warning := if canP then info.warning else
              some "HEVC/x265 tidak didukung browser ini. Gunakan Safari, Edge (+ HEVC ext), atau VLC." }
        else info
      if containsSub mt "matroska" || containsSub mt "x-matroska" then
        { info with container := "MKV", needsSpecial := true }
      else info
    else info
  let info :=
    if ext = "mkv" then
      let canMKV := pr.mkvAvc
      let canWebM := pr.webmVp9
      let base := { info with container := "MKV", needsSpecial := true }
      if !canMKV && !canWebM then
        { base with warning := some (jsOrStr base.warning
            "MKV mungkin tidak bisa diputar. Coba tetap play — Chrome sering mendukung MKV+H.264.") }
      else base
    else info
  let info :=
    if ext = "avi" then
      { info with
        container := "AVI"
        needsSpecial := true
        canPlay := false
        warning := some "AVI tidak didukung browser. Gunakan VLC atau download file." }
    else info
  let info :=
    if ext = "flv" then
      { info with
        container := "FLV"
        needsSpecial := true
        canPlay := false
        warning := some "FLV tidak didukung browser. Gunakan VLC atau download file." }
    else info
  let info :=
    if ext = "wmv" then
      { info with
        container := "WMV"
        needsSpecial := true
        canPlay := false
        warning := some "WMV tidak didukung browser. Gunakan VLC atau download file." }
    else info
  let info :=
    if x265Name url then
      let base := { info with codec := "HEVC/x265" }
      if !pr.hevc then
        { base with
          canPlay := false
          warning := some "HEVC/x265 tidak didukung browser ini. Gunakan Safari, Edge (+ HEVC ext), atau VLC." }
      else base
    else info
  let info :=
    if tenBitName url then
      let base := { info with codec := info.codec ++ " 10-bit" }
      if containsSub base.codec "x265" || containsSub base.codec "HEVC" then base
      else
        { base with warning := some (jsOrStr base.warning
            "10-bit video mungkin tidak didukung browser. Coba play — jika gagal, gunakan VLC.") }
    else info
  info

/-- PixelDrain metadata as stored by store.js `PixelDrainCache.fetch`
(fields used by the resolver: `name`, `size`, `type`). -/
structure PdMeta where
  name : JStr
  size : Option Nat
  type : JStr
deriving Repr, DecidableEq

/-- The JSON body of a resolve-endpoint response (§6 contract).  The
`headers` object is abstracted as an opaque optional payload; the resolver
only passes it through. -/
structure ResolveBody where
  resolved : Bool
  url : JStr
  referer : JStr
  origin : JStr
  cookie : JStr
  headers : JStr
  note : JStr
  filename : JStr
  filesize : Option Nat
  mode : JStr
deriving Repr, DecidableEq

/-- Outcome of the resolve-endpoint fetch: HTTP `ok` flag plus the parsed
JSON body (`none` body = the response text was not JSON). -/
structure HttpResp where
  ok : Bool
  body : Option ResolveBody
deriving Repr, DecidableEq

/-- resolver.js normalized resolution result (`callResolve`'s return value). -/
structure ResolvedData where
  url : String
  referer : JStr
  origin : JStr
  cookie : JStr
  headers : JStr
  note : JStr
  filename : JStr
  filesize : Option Nat
  mode : String
deriving Repr, DecidableEq

/-- resolver.js `callResolve` (v2.1), with the fetch outcome explicit:
`none` models a transport error or the 15 s abort.  Empty `PROXY_URL`,
non-2xx, non-JSON, or a body without truthy `resolved`/`url` all soft-fail
to `none`. -/
def callResolve (resp : Option HttpResp) : Option ResolvedData :=
  if PROXY_URL = "" then none
  else
    match resp with
    | none => none
    | some r =>
      if !r.ok then none
      else
        match r.body with
        | none => none
        | some d =>
          if d.resolved && truthyO d.url then
            some
              { url := jsOrStr d.url ""
                referer := jsOrNull d.referer
                origin := jsOrNull d.origin
                cookie := jsOrNull d.cookie
                headers := jsOrNull d.headers
                note := jsOrNull d.note
                filename := jsOrNull d.filename
                filesize := jsOrNullNat d.filesize
                mode := jsOrStr d.mode "resolved" }
          else none

/-- resolver.js `parseInput` output: either a torrent descriptor or a
normalized URL with its detected provider and optional PixelDrain id. -/
inductive Parsed where
  | torrent (torrentId : String)
  | url (u : String) (provider : String) (pdId : JStr)
deriving Repr, DecidableEq

/-- resolver.js `parseInput` (v2.1): trim, classify torrents, normalize the
scheme, detect the provider, extract a PixelDrain id. -/
def parseInput (P : UrlOracle) (raw : String) : Option Parsed :=
  let u := trimStr raw
  if u = "" then none
  else if startsWithStr u "magnet:" then some (Parsed.torrent u)
  else if isTorrentUrl u then some (Parsed.torrent u)
  else
    let u := if !hasProto u && !startsWithStr u "blob:" then "https://" ++ u else u
    some (Parsed.url u (detectProvider P u) (PixelDrainCache.getId u))

/-- The MEGA hard-block warning string set by resolver.js (v2.1) when the
resolve note mentions encryption. -/
def megaWarning : String :=
  "MEGA files are AES encrypted. Browser tidak bisa play langsung. Download file dengan MEGA app lalu putar dengan VLC."

/-- The resolve cycle's output object (spec `MediaDescriptor`), mirroring the
record literals returned by resolver.js `resolveMedia` (v2.1). -/
structure MediaInfo where
  kind : String
  provider : String
  url : String
  directURL : JStr
  playURL : JStr
  id : String
  title : String
  needsResolve : Bool
  resolvedData : Option ResolvedData
  codecInfo : Option CodecInfo
  pdMeta : Option PdMeta
  pdId : JStr
  torrentId : JStr
  warning : JStr
deriving Repr, DecidableEq

/-- resolver.js `resolveMedia` (v2.1).  Explicit inputs for the effects: the
URL-parse oracle `P`, the `canPlayType` probes, the settled outcome of the
PixelDrain metadata race (`pdFetch`, `none` = miss/timeout), and the resolve
fetch outcome (`resolveResp`). -/
def resolveMedia (P : UrlOracle) (pr : Probes) (pdFetch : Option PdMeta)
    (resolveResp : Option HttpResp) (raw : String) : Option MediaInfo :=
  match parseInput P raw with
  | none => none
  | some (Parsed.torrent tid) =>
    some
      { kind := "torrent"
        provider := "Torrent"
        url := raw
        directURL := some tid
        playURL := none
        id := "tor:" ++ raw
        title := "Torrent"
        needsResolve := false
        resolvedData := none
        codecInfo := none
        pdMeta := none
        pdId := none
        torrentId := some tid
        warning := none }
  | some (Parsed.url u prov pdId) =>
    let needsResolve := hostNeedsResolve P u
    let directURL0 := u
    let title0 := guessName P u prov
    -- Step 1: PixelDrain metadata
    let pdMeta : Option PdMeta := if truthyO pdId then pdFetch else none
    let title1 :=
      if truthyO pdId then
        match pdMeta with
        | some m => if truthyO m.name then jsOrStr m.name "" else title0
        | none => title0
      else title0
    let directURL1 :=
      if truthyO pdId then "https://pixeldrain.com/api/file/" ++ jsOrStr pdId "" else directURL0
    -- Step 2: resolve via proxy
    let resolvedData := if needsResolve then callResolve resolveResp else none
    let directURL2 :=
      match resolvedData with
      | some rd => rd.url
      | none => directURL1
    let title2 :=
      match resolvedData with
      | some rd => if truthyO rd.filename then jsOrStr rd.filename "" else title1
      | none => title1
    let warning0 : JStr :=
      match resolvedData with
      | some rd =>
        if truthyO rd.note && containsSub (jsOrStr rd.note "") "encrypted" then some megaWarning
        else none
      | none => none
    -- Step 3: build play URL
    let playURL :=
      if needsResolve || truthyO pdId then buildProxy (some directURL2)
      else if isHLSUrl directURL2 then buildProxy (some directURL2)
      else some directURL2
    -- Step 4: codec detection
    let mimeType : JStr :=
      match pdMeta with
      | some m => jsOrNull m.type
      | none => none
    let codecInfo := detectCodecSupport pr P directURL2 mimeType
    let warning1 :=
      if truthyO codecInfo.warning && !truthyO warning0 then codecInfo.warning else warning0
    -- Final title overrides (filename, then cached name)
    let title3 :=
      match resolvedData with
      | some rd => if truthyO rd.filename then jsOrStr rd.filename "" else title2
      | none => title2
    let title4 :=
      match pdMeta with
      | some m => if truthyO m.name then jsOrStr m.name "" else title3
      | none => title3
    some
      { kind := "url"
        provider := prov
        url := raw
        directURL := some directURL2
        playURL := playURL
        id := "url:" ++ directURL2
        title := title4
        needsResolve := needsResolve
        resolvedData := resolvedData
        codecInfo := some codecInfo
        pdMeta := pdMeta
        pdId := jsOrNull pdId
        torrentId := none
        warning := warning1 }

/-- The observable part of the range-probe response: HTTP status and the
`accept-ranges` header (`none` = header absent). -/
structure ProbeResp where
  status : Nat
  acceptRanges : JStr
deriving Repr, DecidableEq

/-- resolver.js `detectRangeSupport`, with the probe fetch outcome explicit
(`none` = transport error or the 5 s abort, caught and mapped to `null`). -/
def detectRangeSupport (resp : Option ProbeResp) : Option Bool :=
  match resp with
  | none => none
  | some r =>
    if r.status = 206 then some true
    else
      let ar := toLowerStr (jsOrStr r.acceptRanges "")
      if containsSub ar "bytes" then some true
      else some false

/-- A fallback-chain candidate (`{ url, label }`); the `url` can be a JS
`null` when `buildProxy` passes a null through an empty proxy base. -/
structure Candidate where
  url : JStr
  label : String
deriving Repr, DecidableEq

/-- resolver.js `tryLoadWithFallback`'s result object. -/
structure FallbackResult where
  success : Bool
  usedUrl : JStr
  tryIndex : Option Nat
  label : JStr
  error : JStr
deriving Repr, DecidableEq

/-- Observable outcome of one `_tryLoadSingle` attempt: either a readiness
signal fired, or the attempt failed (error event / 20 s timeout), in which
case the sink's `error` property carries an optional code/message pair
(`none` = `videoEl.error` is `null`, e.g. after a plain timeout). -/
inductive AttemptOutcome where
  | ok
  | fail (err : Option (Nat × String))
deriving Repr, DecidableEq

/-- Did the attempt succeed? -/
def AttemptOutcome.isOk : AttemptOutcome → Bool
  | AttemptOutcome.ok => true
  | AttemptOutcome.fail _ => false

/-- The environment of a fallback run: the outcome of the `i`-th sequential
load attempt.  Each `_tryLoadSingle` call assigns exactly one candidate URL
to the playback sink, so attempt count = sink-assignment count. -/
abbrev ChainEnv := Nat → AttemptOutcome

/-- The structured failure line
`` `${label}: error code=${errCode} msg="${errMsg}"` `` — `videoEl.error?.code`
stringifies to `"undefined"` when the sink has no error object, and
`videoEl.error?.message || ""` collapses to the empty string. -/
def errLine (label : String) (err : Option (Nat × String)) : String :=
  label ++ ": error code=" ++
    (match err with
     | none => "undefined"
     | some (c, _) => toString c) ++
    " msg=\x22" ++
    (match err with
     | none => ""
     | some (_, m) => m) ++ "\x22"

/-- The source's repeated guarded-push idiom
`if (!urls.find(u => u.url === v)) urls.push({ url: v, label })`. -/
def pushIfAbsent (l : List Candidate) (v : JStr) (lab : String) : List Candidate :=
  if (l.find? fun c => decide (c.url = v)).isNone then l ++ [{ url := v, label := lab }]
  else l

/-- resolver.js `tryLoadWithFallback` candidate-list construction (v2.1 steps
1–4), generalised over the proxy base `buildProxy` closes over. -/
def buildCandidates (base : String) (mi : MediaInfo) : List Candidate :=
  let urls0 : List Candidate :=
    if truthyO mi.playURL then [{ url := mi.playURL, label := "proxy" }] else []
  let urls1 :=
    if truthyO mi.directURL ∧ mi.directURL ≠ mi.playURL then
      urls0 ++ [{ url := mi.directURL, label := "direct" }]
    else urls0
  let urls2 := pushIfAbsent urls1 (buildProxyBase base mi.directURL) "proxy-fallback"
  if mi.directURL ≠ some mi.url then
    pushIfAbsent urls2 (buildProxyBase base (some mi.url)) "proxy-original"
  else urls2

/-- Terminal state of the sequential attempt loop. -/
inductive ChainRes where
  | success (url : JStr) (idx : Nat) (label : String)
  | exhausted (errors : List String)
deriving Repr, DecidableEq

/-- The `for` loop of `tryLoadWithFallback`: try candidates in order, stop at
the first success, otherwise record one `errLine` per candidate.  The second
component counts `_tryLoadSingle` calls (= sink assignments). -/
def chainLoop (env : ChainEnv) : List Candidate → Nat → List String → ChainRes × Nat
  | [], _, errs => (ChainRes.exhausted errs, 0)
  | c :: rest, i, errs =>
    match env i with
    | AttemptOutcome.ok => (ChainRes.success c.url i c.label, 1)
    | AttemptOutcome.fail e =>
      let r := chainLoop env rest (i + 1) (errs ++ [errLine c.label e])
      (r.1, r.2 + 1)

/-- The codec prefix of the exhausted-chain diagnostic
(`Format: … / …\n` + warning, with JS `null` stringification). -/
def codecFailPart (codecInfo : Option CodecInfo) : String :=
  match codecInfo with
  | some ci =>
    if !ci.canPlay then
      "Format: " ++ ci.container ++ " / " ++ ci.codec ++ "\n" ++ jsToStr ci.warning ++ "\n\n"
    else ""
  | none => ""

/-- The composite diagnostic built when every candidate failed. -/
def exhaustedMsg (codecInfo : Option CodecInfo) (errors : List String) : String :=
  "Semua URL gagal dimuat.\n\n" ++ codecFailPart codecInfo ++
    "Detail error:\n" ++ String.intercalate "\n" errors ++ "\n\n" ++
    "Gunakan tombol Download untuk download file, lalu putar dengan VLC."

/-- resolver.js `tryLoadWithFallback` (v2.1), generalised over the proxy base
and with the per-attempt sink outcomes explicit.  Returns the result object
and the number of candidate URLs assigned to the sink.  It is a total
function: exhaustion produces a normal `success := false` result, never an
exception. -/
def tryLoadWithFallback (base : String) (env : ChainEnv) (mi : MediaInfo) :
    FallbackResult × Nat :=
  let urls := buildCandidates base mi
  match chainLoop env urls 0 [] with
  | (ChainRes.success u i l, n) =>
    ({ success := true, usedUrl := u, tryIndex := some i, label := some l, error := none }, n)
  | (ChainRes.exhausted errs, n) =>
    ({ success := false
       usedUrl := some (jsOrStr (urls.head?.bind Candidate.url) "")
       tryIndex := none
       label := none
       error := some (exhaustedMsg mi.codecInfo errs) }, n)

/-- player.js `bufferedContains`: is `t` inside some buffered interval? -/
def bufferedContains (buf : List (ℚ × ℚ)) (t : ℚ) : Bool :=
  buf.any fun iv => decide (iv.1 ≤ t) && decide (t ≤ iv.2)

/-- Sink state observed when the 900 ms guard timer fires: playback position,
buffered ranges, and the `rangeOK` module flag at that time. -/
structure SeekObsAfter where
  pos : ℚ
  buffered : List (ℚ × ℚ)
  rangeOK : Bool
deriving Repr, DecidableEq

/-- Observable effect of a `safeSeek` call: the immediately requested seek
target (if any), the recorded pre-seek position, the position after the
episode settles, the surfaced toast, and the scheduled timer delay. -/
structure SeekOutcome where
  immediateSeek : Option ℚ
  recordedPre : Option ℚ
  finalPos : ℚ
  notice : JStr
  timerDelayMs : Option Nat
deriving Repr, DecidableEq

/-- player.js `safeSeek`.  `dur = none` models a non-finite `v.duration`;
`pos0`/`buf0`/`rangeOK0` are the sink state at call time, `after` the state
when the 900 ms timer fires (the source re-reads `v.currentTime`,
`v.buffered`, and the `rangeOK` flag inside the timer callback). -/
def safeSeek (dur : Option ℚ) (pos0 : ℚ) (buf0 : List (ℚ × ℚ)) (rangeOK0 : Bool)
    (after : SeekObsAfter) (t0 : ℚ) : SeekOutcome :=
  match dur with
  | none =>
    { immediateSeek := none, recordedPre := none, finalPos := pos0
      notice := none, timerDelayMs := none }
  | some d =>
    let t := clampQ t0 0 d
    if rangeOK0 || bufferedContains buf0 t then
      { immediateSeek := some t, recordedPre := none, finalPos := t
        notice := none, timerDelayMs := none }
    else
      let before := pos0
      let close := decide (|after.pos - t| ≤ 2)
      if !close && !bufferedContains after.buffered t && !after.rangeOK then
        { immediateSeek := some t, recordedPre := some before, finalPos := before
          notice := some "Server tidak mendukung seek jauh (byte-range).", timerDelayMs := some 900 }
      else
        { immediateSeek := some t, recordedPre := some before, finalPos := after.pos
          notice := none, timerDelayMs := some 900 }

/-- Terminal states of player.js `loadMedia` for a resolve cycle, as far as
the claims need to distinguish them.  The HLS sub-flow (hls.js / native) is
collapsed into one state that hands the play URL to the sink/HLS engine. -/
inductive LoadOutcome where
  | torrentLoad (torrentId : String)
  | invalidInput (title msg : String)
  | hardBlocked (title msg : String)
  | hlsFlow (playURL : JStr)
  | played (r : FallbackResult)
  | allFailed (title msg : String)
deriving Repr, DecidableEq

/-- player.js `loadMedia` (steps 1, 2, 5, 6, 7), with the same explicit
effect inputs as `resolveMedia` plus the fallback-chain environment.  The
second component counts candidate URLs assigned to the playback sink during
the cycle (the collapsed HLS sub-flow hands over exactly its play URL). -/
def loadMedia (P : UrlOracle) (pr : Probes) (pdFetch : Option PdMeta)
    (resolveResp : Option HttpResp) (env : ChainEnv) (raw : String) :
    LoadOutcome × Nat :=
  match parseInput P raw with
  | none => (LoadOutcome.invalidInput "Invalid URL" "Cannot parse input.", 0)
  | some (Parsed.torrent tid) => (LoadOutcome.torrentLoad tid, 0)
  | some (Parsed.url _ _ _) =>
    match resolveMedia P pr pdFetch resolveResp raw with
    | none => (LoadOutcome.invalidInput "Invalid URL" "Cannot parse input.", 0)
    | some info =>
      -- Step 2: MEGA warning (encrypted — cannot play)
      if truthyO info.warning && containsSub (jsOrStr info.warning "") "encrypted" then
        (LoadOutcome.hardBlocked "Cannot play MEGA" (jsOrStr info.warning ""), 0)
      -- Step 5: HLS
      else if isHLSUrl (jsToStr info.directURL) then
        (LoadOutcome.hlsFlow info.playURL, 1)
      -- Step 6: normal video — fallback chain
      else
        let r := tryLoadWithFallback PROXY_URL env info
        if r.1.success then (LoadOutcome.played r.1, r.2)
        -- Step 7: all URLs failed
        else
          let errMsg0 := jsOrStr r.1.error "Cannot load video."
          let errMsg1 :=
            match info.codecInfo with
            | some ci => if truthyO ci.warning then errMsg0 ++ "\n\n" ++ jsOrStr ci.warning "" else errMsg0
            | none => errMsg0
          let errMsg2 := errMsg1 ++
            "\n\nGunakan tombol Download untuk mendownload file dan putar dengan VLC."
          (LoadOutcome.allFailed "Cannot play" errMsg2, r.2)

/-! ## Spec-side provider rule table (§3 `ProviderTag`, §4.1)

The spec describes provider detection as an ordered table of hostname
substring rules, first match wins, falling through to URL-shape checks and
then `"Direct"`.  `providerRules`/`tableLookup` transcribe that description;
the refinement theorem for C8 relates it to the source's `detectProvider`. -/

/-- The ordered rule table: each entry is the list of hostname substrings
that select the tag (a rule with several substrings matches if any occurs). -/
def providerRules : List (List String × String) :=
  [ (["gofile.io"], "GoFile"),
    (["google.com", "googleusercontent.com"], "Google Drive"),
    (["mega.nz", "mega.co.nz"], "MEGA"),
    (["pixeldrain.com"], "PixelDrain"),
    (["mediafire.com"], "MediaFire"),
    (["megaup.net"], "MegaUp"),
    (["1fichier.com"], "1Fichier"),
    (["krakenfiles.com"], "Krakenfiles"),
    (["send.cm"], "Send.cm"),
    (["streamtape", "strtape"], "StreamTape"),
    (["dood", "ds2play", "d0"], "DoodStream"),
    (["filemoon"], "FileMoon"),
    (["streamwish", "wish"], "StreamWish"),
    (["mp4upload"], "Mp4Upload"),
    (["mixdrop", "mixdrp"], "MixDrop"),
    (["vidoza"], "Vidoza"),
    (["voe."], "Voe"),
    (["upstream"], "Upstream"),
    (["filelions", "lions"], "FileLions"),
    (["vtube", "vtbe"], "VTube"),
    (["hexupload"], "HexUpload"),
    (["racaty"], "Racaty"),
    (["usersdrive"], "UsersDrive"),
    (["buzzheavier", "bfrm.io"], "Buzzheavier") ]

/-- First-match-wins evaluation of the rule table against a (lowercased)
hostname, falling through to the URL-shape checks and then `"Direct"`. -/
def tableLookup (h url : String) : List (List String × String) → String
  | [] => if isHLSUrl url then "HLS" else if isDASHUrl url then "DASH" else "Direct"
  | (ns, tag) :: rest =>
    if ns.any (fun n => containsSub h n) then tag else tableLookup h url rest

/-- Spec-style provider detection: ordered table, then shape, then Direct. -/
def detectProviderTable (P : UrlOracle) (url : String) : String :=
  tableLookup (hostnameOf P url) url providerRules

/-! ## Helper lemmas -/

/-- `prefixAt` decides list prefixhood. -/
theorem prefixAt_iff (nd s : List Char) : prefixAt nd s = true ↔ nd <+: s := by
  unfold prefixAt
  rw [decide_eq_true_iff, List.prefix_iff_eq_take]
  exact ⟨fun h => h.symm, fun h => h.symm⟩

/-- `subSearch` decides list infixhood. -/
theorem subSearch_iff (nd : List Char) : ∀ s, subSearch nd s = true ↔ nd <:+: s := by
  intro s
  induction s with
  | nil =>
    simp only [subSearch, prefixAt_iff]
    refine ⟨fun h => h.isInfix, fun h => ?_⟩
    rw [List.eq_nil_of_infix_nil h]
  | cons c r ih =>
    simp only [subSearch, Bool.or_eq_true, prefixAt_iff, ih]
    exact (List.infix_cons_iff).symm

/-- `containsSub` decides string-substring containment. -/
theorem containsSub_iff (hay needle : String) :
    containsSub hay needle = true ↔ needle.toList <:+: hay.toList := by
  unfold containsSub
  exact subSearch_iff _ _

/-- A guarded push keeps the candidate URLs pairwise distinct. -/
theorem pushIfAbsent_nodup (l : List Candidate) (v : JStr) (lab : String)
    (h : l.Pairwise (fun a b => a.url ≠ b.url)) :
    (pushIfAbsent l v lab).Pairwise (fun a b => a.url ≠ b.url) := by
  unfold pushIfAbsent
  split_ifs with hg
  · rw [List.pairwise_append]
    refine ⟨h, List.pairwise_singleton _ _, ?_⟩
    intro x hx y hy
    simp only [List.mem_singleton] at hy
    subst hy
    have hx2 := List.find?_eq_none.mp (Option.isNone_iff_eq_none.mp hg) x hx
    simpa using hx2
  · exact h

/-- A guarded push grows the list by at most one and leaves it non-empty. -/
theorem pushIfAbsent_len (l : List Candidate) (v : JStr) (lab : String) :
    1 ≤ (pushIfAbsent l v lab).length ∧ l.length ≤ (pushIfAbsent l v lab).length ∧
      (pushIfAbsent l v lab).length ≤ l.length + 1 := by
  unfold pushIfAbsent
  split_ifs with hg
  · refine ⟨?_, ?_, ?_⟩ <;> (rw [List.length_append]; simp only [List.length_singleton]; omega)
  · refine ⟨?_, le_refl _, by omega⟩
    cases l with
    | nil => exact absurd (by rw [List.find?_nil]; rfl) hg
    | cons a t => simp only [List.length_cons]; omega

/-! ## C4 — the candidate list never contains a duplicate URL -/

/-- C4: for every `MediaDescriptor` (any combination of `playURL`, `directURL`
and original input URL) and any proxy base configuration, the ordered
candidate list built by the Fallback Chain Engine contains no two entries
with the same URL string. -/
theorem buildCandidates_nodup (base : String) (mi : MediaInfo) :
    (buildCandidates base mi).Pairwise (fun a b => a.url ≠ b.url) := by
  have step : ∀ l : List Candidate, l.Pairwise (fun a b => a.url ≠ b.url) →
      (if mi.directURL ≠ some mi.url then
          pushIfAbsent (pushIfAbsent l (buildProxyBase base mi.directURL) "proxy-fallback")
            (buildProxyBase base (some mi.url)) "proxy-original"
        else
          pushIfAbsent l (buildProxyBase base mi.directURL) "proxy-fallback").Pairwise
        (fun a b => a.url ≠ b.url) := by
    intro l hl
    split_ifs with hD
    · exact pushIfAbsent_nodup _ _ _ (pushIfAbsent_nodup _ _ _ hl)
    · exact pushIfAbsent_nodup _ _ _ hl
  simp only [buildCandidates]
  apply step
  split_ifs with hB hA hA
  · refine List.pairwise_append.mpr
      ⟨List.pairwise_singleton _ _, List.pairwise_singleton _ _, ?_⟩
    intro x hx y hy
    simp only [List.mem_singleton] at hx hy
    subst hx; subst hy
    exact fun e => hB.2 e.symm
  · rw [List.nil_append]
    exact List.pairwise_singleton _ _
  · exact List.pairwise_singleton _ _
  · exact List.Pairwise.nil

/-! ## C9 — candidate list size bounds -/

/-- C9: for every `MediaDescriptor` with a non-null `playURL`, the candidate
list built by the Fallback Chain Engine contains at least 1 and at most 4
entries. -/
theorem buildCandidates_size (base : String) (mi : MediaInfo) (h : mi.playURL ≠ none) :
    1 ≤ (buildCandidates base mi).length ∧ (buildCandidates base mi).length ≤ 4 := by
  have step : ∀ l : List Candidate, l.length ≤ 2 →
      1 ≤ (if mi.directURL ≠ some mi.url then
          pushIfAbsent (pushIfAbsent l (buildProxyBase base mi.directURL) "proxy-fallback")
            (buildProxyBase base (some mi.url)) "proxy-original"
        else
          pushIfAbsent l (buildProxyBase base mi.directURL) "proxy-fallback").length ∧
      (if mi.directURL ≠ some mi.url then
          pushIfAbsent (pushIfAbsent l (buildProxyBase base mi.directURL) "proxy-fallback")
            (buildProxyBase base (some mi.url)) "proxy-original"
        else
          pushIfAbsent l (buildProxyBase base mi.directURL) "proxy-fallback").length ≤ 4 := by
    intro l hl
    split_ifs with hD
    · obtain ⟨a1, b1, c1⟩ := pushIfAbsent_len l (buildProxyBase base mi.directURL) "proxy-fallback"
      obtain ⟨a2, b2, c2⟩ := pushIfAbsent_len
        (pushIfAbsent l (buildProxyBase base mi.directURL) "proxy-fallback")
        (buildProxyBase base (some mi.url)) "proxy-original"
      exact ⟨by omega, by omega⟩
    · obtain ⟨a1, b1, c1⟩ := pushIfAbsent_len l (buildProxyBase base mi.directURL) "proxy-fallback"
      exact ⟨by omega, by omega⟩
  simp only [buildCandidates]
  apply step
  split_ifs <;>
    simp only [List.length_append, List.length_singleton, List.length_cons, List.length_nil] <;>
    omega

/-! ## Fallback chain attempt loop -/

/-- If attempts `i0, …, i0+k-1` fail and attempt `i0+k` succeeds, the loop
stops at candidate `k` with exactly `k + 1` sink assignments. -/
theorem chainLoop_first_ok (env : ChainEnv) :
    ∀ (cands : List Candidate) (k i0 : Nat) (errs : List String) (hk : k < cands.length),
      (∀ j, j < k → (env (i0 + j)).isOk = false) → env (i0 + k) = AttemptOutcome.ok →
      chainLoop env cands i0 errs =
        (ChainRes.success (cands.get ⟨k, hk⟩).url (i0 + k) (cands.get ⟨k, hk⟩).label, k + 1) := by
  intro cands
  induction cands with
  | nil => intro k i0 errs hk; exact absurd hk (Nat.not_lt_zero k)
  | cons c rest ih =>
    intro k i0 errs hk hprev hok
    cases k with
    | zero =>
      show chainLoop env (c :: rest) i0 errs = _
      unfold chainLoop
      rw [show env i0 = AttemptOutcome.ok from hok]
      rfl
    | succ k2 =>
      have hfail : (env i0).isOk = false := hprev 0 (Nat.succ_pos k2)
      unfold chainLoop
      cases henv : env i0 with
      | ok => rw [henv] at hfail; exact absurd hfail (by simp [AttemptOutcome.isOk])
      | fail e =>
        simp only [henv]
        have hk2 : k2 < rest.length := by
          simp only [List.length_cons] at hk; omega
        have hprev2 : ∀ j, j < k2 → (env (i0 + 1 + j)).isOk = false := by
          intro j hj
          have hp := hprev (j + 1) (by omega)
          rwa [show i0 + (j + 1) = i0 + 1 + j by omega] at hp
        have hok2 : env (i0 + 1 + k2) = AttemptOutcome.ok := by
          rwa [show i0 + (k2 + 1) = i0 + 1 + k2 by omega] at hok
        rw [ih k2 (i0 + 1) (errs ++ [errLine c.label e]) hk2 hprev2 hok2]
        rw [show i0 + 1 + k2 = i0 + (k2 + 1) by omega]
        rfl

/-- One structured `errLine` per candidate, in order, when every attempt from
index `i` on fails with the sink error given by `e`. -/
def failLines (e : Nat → Option (Nat × String)) : Nat → List Candidate → List String
  | _, [] => []
  | i, c :: rest => errLine c.label (e i) :: failLines e (i + 1) rest

/-- `failLines` produces exactly one line per candidate. -/
theorem failLines_length (e : Nat → Option (Nat × String)) :
    ∀ (cands : List Candidate) (i : Nat), (failLines e i cands).length = cands.length := by
  intro cands
  induction cands with
  | nil => intro i; rfl
  | cons c rest ih => intro i; simp only [failLines, List.length_cons, ih]

/-- When every attempt fails, the loop exhausts the whole list, appending one
failure line per candidate, with one sink assignment per candidate. -/
theorem chainLoop_all_fail (env : ChainEnv) (e : Nat → Option (Nat × String)) :
    ∀ (cands : List Candidate) (i0 : Nat) (errs : List String),
      (∀ j, j < cands.length → env (i0 + j) = AttemptOutcome.fail (e (i0 + j))) →
      chainLoop env cands i0 errs =
        (ChainRes.exhausted (errs ++ failLines e i0 cands), cands.length) := by
  intro cands
  induction cands with
  | nil =>
    intro i0 errs _
    show (ChainRes.exhausted errs, 0) = _
    rw [failLines, List.append_nil]
    rfl
  | cons c rest ih =>
    intro i0 errs hall
    have h0 : env i0 = AttemptOutcome.fail (e i0) := by
      have ha := hall 0 (Nat.succ_pos rest.length)
      rwa [Nat.add_zero] at ha
    unfold chainLoop
    simp only [h0]
    have hall2 : ∀ j, j < rest.length → env (i0 + 1 + j) = AttemptOutcome.fail (e (i0 + 1 + j)) := by
      intro j hj
      have ha := hall (j + 1) (by simp only [List.length_cons]; omega)
      rwa [show i0 + (j + 1) = i0 + 1 + j by omega] at ha
    rw [ih (i0 + 1) (errs ++ [errLine c.label (e i0)]) hall2]
    rw [List.append_assoc]
    rfl

/-- Substring containment survives extending the haystack on the right. -/
theorem containsSub_append_right (a b w : String) (h : containsSub a w = true) :
    containsSub (a ++ b) w = true := by
  rw [containsSub_iff] at h ⊢
  exact h.trans (List.prefix_append a.toList b.toList).isInfix

/-- Substring containment survives extending the haystack on the left. -/
theorem containsSub_append_left (a b w : String) (h : containsSub b w = true) :
    containsSub (a ++ b) w = true := by
  rw [containsSub_iff] at h ⊢
  exact h.trans (List.suffix_append a.toList b.toList).isInfix

/-- Every string contains itself. -/
theorem containsSub_refl (w : String) : containsSub w w = true := by
  rw [containsSub_iff]

/-! ## C5 — a success halts the chain -/

/-- C5: if the attempt at index `k` of the fallback chain succeeds (and the
earlier ones did not), no later attempt is made — exactly `k + 1` candidates
are assigned to the playback sink — and the outcome carries `success := true`
with the winning URL, its index, and its label. -/
theorem tryLoadWithFallback_first_success (base : String) (env : ChainEnv) (mi : MediaInfo)
    (k : Nat) (hk : k < (buildCandidates base mi).length)
    (hprev : ∀ j, j < k → (env j).isOk = false) (hok : env k = AttemptOutcome.ok) :
    tryLoadWithFallback base env mi =
      ({ success := true
         usedUrl := ((buildCandidates base mi).get ⟨k, hk⟩).url
         tryIndex := some k
         label := some ((buildCandidates base mi).get ⟨k, hk⟩).label
         error := none }, k + 1) := by
  simp only [tryLoadWithFallback]
  have hloop := chainLoop_first_ok env (buildCandidates base mi) k 0 [] hk
    (by intro j hj; rw [Nat.zero_add]; exact hprev j hj)
    (by rw [Nat.zero_add]; exact hok)
  rw [Nat.zero_add] at hloop
  rw [hloop]

/-! ## C6 — exhaustion is a normal, fully-described terminal state -/

/-- C6: when every candidate errors or times out, `tryLoadWithFallback`
returns a normal `success := false` result (it is a total function — nothing
is thrown) whose diagnostic message is the codec-advisor block (present
exactly when the advisor flagged non-playability), followed by one
structured failure line per candidate, followed by the external-download
directive; additionally the failure lines are one per candidate, and the
message contains the codec warning whenever the advisor flagged the media. -/
theorem tryLoadWithFallback_exhausted (base : String) (env : ChainEnv)
    (e : Nat → Option (Nat × String)) (mi : MediaInfo)
    (hall : ∀ j, j < (buildCandidates base mi).length → env j = AttemptOutcome.fail (e j)) :
    tryLoadWithFallback base env mi =
      ({ success := false
         usedUrl := some (jsOrStr ((buildCandidates base mi).head?.bind Candidate.url) "")
         tryIndex := none
         label := none
         error := some ("Semua URL gagal dimuat.\n\n" ++ codecFailPart mi.codecInfo ++
           "Detail error:\n" ++
           String.intercalate "\n" (failLines e 0 (buildCandidates base mi)) ++ "\n\n" ++
           "Gunakan tombol Download untuk download file, lalu putar dengan VLC.") },
        (buildCandidates base mi).length) ∧
      (failLines e 0 (buildCandidates base mi)).length = (buildCandidates base mi).length ∧
      (∀ ci, mi.codecInfo = some ci → ci.canPlay = false →
        containsSub
          ("Semua URL gagal dimuat.\n\n" ++ codecFailPart mi.codecInfo ++ "Detail error:\n" ++
            String.intercalate "\n" (failLines e 0 (buildCandidates base mi)) ++ "\n\n" ++
            "Gunakan tombol Download untuk download file, lalu putar dengan VLC.")
          (jsToStr ci.warning) = true) := by
  refine ⟨?_, failLines_length e _ 0, ?_⟩
  · simp only [tryLoadWithFallback]
    rw [chainLoop_all_fail env e (buildCandidates base mi) 0 []
      (by intro j hj; rw [Nat.zero_add]; exact hall j hj)]
    rw [List.nil_append]
    rfl
  · intro ci hci hcp
    rw [hci]
    simp only [codecFailPart, hcp, Bool.not_false, if_true]
    apply containsSub_append_right
    apply containsSub_append_right
    apply containsSub_append_right
    apply containsSub_append_right
    apply containsSub_append_left
    apply containsSub_append_right
    apply containsSub_append_left
    exact containsSub_refl _

/-! ## C1 — an encrypted note hard-blocks the cycle -/

/-- When the resolve endpoint produced a note mentioning encryption, the
resolve cycle's output carries the MEGA hard-block warning. -/
theorem resolveMedia_warning_of_encrypted (P : UrlOracle) (pr : Probes) (pdFetch : Option PdMeta)
    (resp : Option HttpResp) (raw u prov : String) (pdId : JStr)
    (hparse : parseInput P raw = some (Parsed.url u prov pdId))
    (hneeds : hostNeedsResolve P u = true)
    (rd : ResolvedData) (hres : callResolve resp = some rd)
    (hnote : truthyO rd.note = true)
    (henc : containsSub (jsOrStr rd.note "") "encrypted" = true) :
    (resolveMedia P pr pdFetch resp raw).map MediaInfo.warning = some (some megaWarning) := by
  simp only [resolveMedia, hparse, hneeds, hres, if_true, hnote, henc, Bool.true_and,
    Option.map_some]
  have hmega : truthyO (some megaWarning) = true := by decide
  simp only [hmega, Bool.not_true, Bool.and_false, Bool.false_eq_true, if_false]
  rfl

/-- Claim C1: for every resolve cycle whose resolve endpoint returns a
successful JSON body with `resolved: true`, a (truthy) `url`, and a `note`
containing the substring `"encrypted"`, the load terminates in a
hard-blocked error state with a user-facing message, and the Fallback Chain
Engine is never invoked: no candidate URL is assigned to the playback sink
(the assignment count is 0). -/
theorem loadMedia_hard_blocks_encrypted (P : UrlOracle) (pr : Probes) (pdFetch : Option PdMeta)
    (resp : Option HttpResp) (env : ChainEnv) (raw u prov : String) (pdId : JStr)
    (hparse : parseInput P raw = some (Parsed.url u prov pdId))
    (hneeds : hostNeedsResolve P u = true)
    (b : ResolveBody) (hresp : resp = some { ok := true, body := some b })
    (hresolved : b.resolved = true) (hurl : truthyO b.url = true)
    (hnote : truthyO b.note = true)
    (henc : containsSub (jsOrStr b.note "") "encrypted" = true) :
    loadMedia P pr pdFetch resp env raw =
      (LoadOutcome.hardBlocked "Cannot play MEGA" megaWarning, 0) := by
  have hostr : jsOrNull b.note = b.note := by
    unfold jsOrNull
    rw [hnote]
    rfl
  have hcall : callResolve resp = some
      { url := jsOrStr b.url ""
        referer := jsOrNull b.referer
        origin := jsOrNull b.origin
        cookie := jsOrNull b.cookie
        headers := jsOrNull b.headers
        note := jsOrNull b.note
        filename := jsOrNull b.filename
        filesize := jsOrNullNat b.filesize
        mode := jsOrStr b.mode "resolved" } := by
    rw [hresp]
    simp only [callResolve, hresolved, hurl, Bool.true_and, if_true]
    rw [if_neg (by decide : ¬PROXY_URL = "")]
    rfl
  have hwarn := resolveMedia_warning_of_encrypted P pr pdFetch resp raw u prov pdId hparse hneeds
    _ hcall (by rw [hostr]; exact hnote) (by rw [hostr]; exact henc)
  cases hrm : resolveMedia P pr pdFetch resp raw with
  | none => rw [hrm] at hwarn; exact absurd hwarn (by simp)
  | some info =>
    have hw : info.warning = some megaWarning := by
      rw [hrm] at hwarn
      simpa using hwarn
    simp only [loadMedia, hparse, hrm, hw]
    rfl

/-! ## C3 — title precedence -/

/-- Amended C3: the final title precedence of a URL resolve cycle is
cached-metadata name, then resolution-result filename, then the
URL-path-derived guess (which itself falls back to the provider name).  The
resolution-result filename does NOT win over a cached name (see the
counterexample theorem below). -/
theorem resolveMedia_title_precedence (P : UrlOracle) (pr : Probes) (pdFetch : Option PdMeta)
    (resp : Option HttpResp) (raw u prov : String) (pdId : JStr)
    (hparse : parseInput P raw = some (Parsed.url u prov pdId)) :
    (resolveMedia P pr pdFetch resp raw).map MediaInfo.title =
      some
        (match (if truthyO pdId then pdFetch else none),
            (if hostNeedsResolve P u then callResolve resp else none) with
         | some m, some rd =>
           if truthyO m.name then jsOrStr m.name ""
           else if truthyO rd.filename then jsOrStr rd.filename ""
           else guessName P u prov
         | some m, none =>
           if truthyO m.name then jsOrStr m.name "" else guessName P u prov
         | none, some rd =>
           if truthyO rd.filename then jsOrStr rd.filename "" else guessName P u prov
         | none, none => guessName P u prov) := by
  simp only [resolveMedia, hparse, Option.map_some]
  cases hpdid : truthyO pdId <;> cases hne : hostNeedsResolve P u <;>
    cases hpf : pdFetch <;> cases hcr : callResolve resp <;>
      simp only [hpdid, hne, hpf, hcr, if_true, if_false, Bool.false_eq_true,
        Option.map_some, Option.map_some', Option.some_inj] <;>
      (split_ifs <;> rfl)

/-! ## C2 — range probe tri-state -/

/-- Amended C2: the range probe returns `true` on a 206 response or an
`Accept-Ranges` header containing `"bytes"`; it returns `false` (not
"unknown") for every other completed response; only a transport failure or
timeout yields `null` ("unknown"). -/
theorem detectRangeSupport_tri_state :
    (∀ r : ProbeResp,
        r.status = 206 ∨ containsSub (toLowerStr (jsOrStr r.acceptRanges "")) "bytes" = true →
        detectRangeSupport (some r) = some true) ∧
    (∀ r : ProbeResp, r.status ≠ 206 →
        containsSub (toLowerStr (jsOrStr r.acceptRanges "")) "bytes" = false →
        detectRangeSupport (some r) = some false) ∧
    detectRangeSupport none = none := by
  refine ⟨?_, ?_, rfl⟩
  · rintro r (h206 | hbytes)
    · simp only [detectRangeSupport, h206, if_true]
    · simp only [detectRangeSupport, hbytes, if_true]
      split_ifs <;> rfl
  · intro r h206 hbytes
    simp only [detectRangeSupport, hbytes, Bool.false_eq_true, if_false]
    rw [if_neg h206]

/-- Counterexample to C2 as stated: a completed 200 response without an
`Accept-Ranges` header — an ambiguous, non-positive outcome — yields
`false`, not "unknown" (`null`). -/
theorem detectRangeSupport_false_on_plain_200 :
    detectRangeSupport (some { status := 200, acceptRanges := none }) = some false ∧
      detectRangeSupport (some { status := 200, acceptRanges := none }) ≠ none := by
  decide

/-- Witness for the amended C2 at concrete probe outcomes. -/
theorem detectRangeSupport_tri_state_witness :
    detectRangeSupport (some { status := 206, acceptRanges := none }) = some true ∧
    detectRangeSupport (some { status := 200, acceptRanges := some "none" }) = some false ∧
    detectRangeSupport none = none :=
  ⟨detectRangeSupport_tri_state.1 _ (Or.inl rfl),
   detectRangeSupport_tri_state.2.1 _ (by decide) (by decide),
   detectRangeSupport_tri_state.2.2⟩

/-! ## C7 — the Safe-Seek Guard -/

/-- Claim C7: on a finite-duration source, a seek to a target outside every
buffered interval with range support unconfirmed records the pre-seek
position and seeks speculatively; if at the 900 ms check the sink position
is more than 2 seconds from the clamped target, the target is still outside
the buffered intervals, and range support is still unconfirmed, the
position reverts to the pre-seek value and the seek-not-supported notice is
surfaced.  If range support is confirmed or the clamped target is inside a
buffered interval, the seek happens unconditionally: no pre-seek recording,
no grace timer, no notice, final position is the clamped target. -/
theorem safeSeek_guard (d pos0 : ℚ) (buf0 : List (ℚ × ℚ)) (after : SeekObsAfter) (t0 : ℚ) :
    (bufferedContains buf0 (clampQ t0 0 d) = false →
      bufferedContains after.buffered (clampQ t0 0 d) = false →
      after.rangeOK = false →
      ¬(|after.pos - clampQ t0 0 d| ≤ 2) →
      safeSeek (some d) pos0 buf0 false after t0 =
        { immediateSeek := some (clampQ t0 0 d), recordedPre := some pos0, finalPos := pos0
          notice := some "Server tidak mendukung seek jauh (byte-range)."
          timerDelayMs := some 900 }) ∧
    (∀ rangeOK0 : Bool, rangeOK0 = true ∨ bufferedContains buf0 (clampQ t0 0 d) = true →
      safeSeek (some d) pos0 buf0 rangeOK0 after t0 =
        { immediateSeek := some (clampQ t0 0 d), recordedPre := none
          finalPos := clampQ t0 0 d, notice := none, timerDelayMs := none }) := by
  constructor
  · intro hbuf0 hbufA hrok hfar
    simp only [safeSeek, hbuf0, Bool.false_or, Bool.false_eq_true, if_false,
      decide_eq_false hfar, hbufA, hrok, Bool.not_false, Bool.and_true, Bool.true_and,
      if_true]
  · intro rOK h
    cases h with
    | inl h =>
      subst h
      simp only [safeSeek, Bool.true_or, if_true]
    | inr h =>
      simp only [safeSeek, h, Bool.or_true, if_true]

/-- Witness for C7 at concrete rational inputs (both branches). -/
theorem safeSeek_guard_witness :
    safeSeek (some 100) 5 [] false { pos := 50, buffered := [], rangeOK := false } 20 =
      { immediateSeek := some (clampQ 20 0 100), recordedPre := some 5, finalPos := 5
        notice := some "Server tidak mendukung seek jauh (byte-range)."
        timerDelayMs := some 900 } ∧
    safeSeek (some 100) 5 [] true { pos := 50, buffered := [], rangeOK := false } 20 =
      { immediateSeek := some (clampQ 20 0 100), recordedPre := none
        finalPos := clampQ 20 0 100, notice := none, timerDelayMs := none } :=
  ⟨(safeSeek_guard 100 5 [] _ 20).1 rfl rfl rfl (by norm_num [clampQ]),
   (safeSeek_guard 100 5 [] _ 20).2 true (Or.inl rfl)⟩

/-! ## C10 — non-finite duration is a no-op -/

/-- Claim C10: when the sink's duration is not finite, `safeSeek` returns
immediately — no seek is requested, the position is unchanged, and no revert
timer or notice is created. -/
theorem safeSeek_nonfinite_noop (pos0 : ℚ) (buf0 : List (ℚ × ℚ)) (rangeOK0 : Bool)
    (after : SeekObsAfter) (t0 : ℚ) :
    safeSeek none pos0 buf0 rangeOK0 after t0 =
      { immediateSeek := none, recordedPre := none, finalPos := pos0
        notice := none, timerDelayMs := none } := rfl

/-! ## C8 — provider detection is a total first-match table -/

/-- Claim C8: provider detection is deterministic and total — it equals the
first-match-wins evaluation of the ordered hostname rule table, with
`.m3u8` mapping to HLS, `.mpd` to DASH, and `"Direct"` when nothing
matches; a URL that fails to parse is treated as having no hostname, so it
falls through every hostname rule to the URL-shape check. -/
theorem detectProvider_total_table (P : UrlOracle) (url : String) :
    detectProvider P url = detectProviderTable P url ∧
    (P url = none →
      detectProvider P url =
        if isHLSUrl url then "HLS" else if isDASHUrl url then "DASH" else "Direct") := by
  constructor
  · simp only [detectProvider, detectProviderTable, providerRules, tableLookup,
      List.any_cons, List.any_nil, Bool.or_false, Bool.or_assoc]
  · intro hP
    simp only [detectProvider, hostnameOf, hP]
    rfl

/-- A URL-parse oracle that always fails (every input is malformed). -/
def nullParse : UrlOracle := fun _ => none

/-- Witness for C8 on a malformed `.mpd` input. -/
theorem detectProvider_total_table_witness :
    detectProvider nullParse "x.mpd" = detectProviderTable nullParse "x.mpd" ∧
    detectProvider nullParse "x.mpd" =
      (if isHLSUrl "x.mpd" then "HLS" else if isDASHUrl "x.mpd" then "DASH" else "Direct") :=
  ⟨(detectProvider_total_table nullParse "x.mpd").1,
   (detectProvider_total_table nullParse "x.mpd").2 rfl⟩

/-! ## Concrete cycles for witnesses and counterexamples -/

/-- A capability-probe environment: no HEVC, MKV/H.264 and WebM/VP9 yes. -/
def defaultProbes : Probes := { hevc := false, mkvAvc := true, webmVp9 := true }

/-- URL-parse oracle knowing one MEGA file URL. -/
def megaParse : UrlOracle := fun s =>
  if s = "https://mega.nz/file/xyz" then
    some { hostname := "mega.nz", pathname := "/file/xyz" }
  else none

/-- A successful resolve body whose note flags client-side encryption. -/
def megaBody : ResolveBody :=
  { resolved := true, url := some "https://cdn.mega.example/file.bin"
    referer := none, origin := none, cookie := none, headers := none
    note := some "AES encrypted", filename := none, filesize := none, mode := none }

/-- Witness for C1: a concrete MEGA cycle ends hard-blocked with zero sink
assignments. -/
theorem loadMedia_hard_blocks_encrypted_witness :
    loadMedia megaParse defaultProbes none (some { ok := true, body := some megaBody })
        (fun _ => AttemptOutcome.ok) "https://mega.nz/file/xyz" =
      (LoadOutcome.hardBlocked "Cannot play MEGA" megaWarning, 0) :=
  loadMedia_hard_blocks_encrypted megaParse defaultProbes none _ _
    "https://mega.nz/file/xyz" "https://mega.nz/file/xyz" "MEGA" none
    (by decide) (by decide) megaBody rfl rfl (by decide) (by decide) (by decide)

/-- URL-parse oracle knowing one PixelDrain share URL. -/
def pdParse : UrlOracle := fun s =>
  if s = "https://pixeldrain.com/u/abc123" then
    some { hostname := "pixeldrain.com", pathname := "/u/abc123" }
  else none

/-- A cached-metadata hit carrying a name. -/
def cachedMeta : Option PdMeta := some { name := some "cached.mp4", size := none, type := none }

/-- A successful resolve body carrying a filename. -/
def resolvedBody : ResolveBody :=
  { resolved := true, url := some "https://cdn.example.com/x.mp4"
    referer := none, origin := none, cookie := none, headers := none
    note := none, filename := some "resolved.mp4", filesize := none, mode := none }

/-- The resolve response wrapping `resolvedBody`. -/
def resolvedResp : Option HttpResp := some { ok := true, body := some resolvedBody }

/-- Counterexample to C3 as stated: in a cycle where both a resolution-result
filename (`"resolved.mp4"`) and a cached-metadata name (`"cached.mp4"`) are
present, the final title is the cached-metadata name, not the
resolution-result filename. -/
theorem resolveMedia_title_prefers_cached_name :
    (callResolve resolvedResp).map ResolvedData.filename = some (some "resolved.mp4") ∧
    cachedMeta.map PdMeta.name = some (some "cached.mp4") ∧
    (resolveMedia pdParse defaultProbes cachedMeta resolvedResp
        "https://pixeldrain.com/u/abc123").map MediaInfo.title = some "cached.mp4" ∧
    ("cached.mp4" : String) ≠ "resolved.mp4" := by
  decide

/-- Witness for the amended C3 on the concrete PixelDrain cycle. -/
theorem resolveMedia_title_precedence_witness :
    (resolveMedia pdParse defaultProbes cachedMeta resolvedResp
        "https://pixeldrain.com/u/abc123").map MediaInfo.title = some "cached.mp4" := by
  rw [resolveMedia_title_precedence pdParse defaultProbes cachedMeta resolvedResp
    "https://pixeldrain.com/u/abc123" "https://pixeldrain.com/u/abc123" "PixelDrain"
    (some "abc123") (by decide)]
  decide

/-- A plain direct-URL media descriptor (with a codec warning, so the
exhaustion diagnostic includes the advisor block). -/
def sampleMedia : MediaInfo :=
  { kind := "url", provider := "Direct", url := "https://a/x.avi"
    directURL := some "https://a/x.avi", playURL := some "https://a/x.avi"
    id := "url:https://a/x.avi", title := "x.avi", needsResolve := false
    resolvedData := none
    codecInfo := some
      { container := "AVI", codec := "unknown", canPlay := false
        warning := some "AVI tidak didukung browser. Gunakan VLC atau download file."
        needsSpecial := true }
    pdMeta := none, pdId := none, torrentId := none, warning := none }

/-- A chain environment whose first attempt fails and second succeeds. -/
def envSecondOk : ChainEnv := fun i => if i = 0 then AttemptOutcome.fail none else AttemptOutcome.ok

/-- Witness for C5: with the second candidate succeeding, the chain stops
after exactly two sink assignments and reports index 1. -/
theorem tryLoadWithFallback_first_success_witness :
    tryLoadWithFallback PROXY_URL envSecondOk sampleMedia =
      ({ success := true
         usedUrl := ((buildCandidates PROXY_URL sampleMedia).get ⟨1, by decide⟩).url
         tryIndex := some 1
         label := some ((buildCandidates PROXY_URL sampleMedia).get ⟨1, by decide⟩).label
         error := none }, 2) :=
  tryLoadWithFallback_first_success PROXY_URL envSecondOk sampleMedia 1 (by decide)
    (fun j hj => by
      have hj0 : j = 0 := by omega
      subst hj0
      decide)
    (by decide)

/-- A chain environment in which every attempt fails with sink error 4. -/
def envFailAll : ChainEnv := fun _ => AttemptOutcome.fail (some (4, "boom"))

/-- Witness for C6: with every candidate failing, the result is a normal
failure whose message has the documented composite shape. -/
theorem tryLoadWithFallback_exhausted_witness :
    (tryLoadWithFallback PROXY_URL envFailAll sampleMedia).1.success = false ∧
    (tryLoadWithFallback PROXY_URL envFailAll sampleMedia).2 =
      (buildCandidates PROXY_URL sampleMedia).length ∧
    (tryLoadWithFallback PROXY_URL envFailAll sampleMedia).1.error =
      some ("Semua URL gagal dimuat.\n\n" ++ codecFailPart sampleMedia.codecInfo ++
        "Detail error:\n" ++
        String.intercalate "\n"
          (failLines (fun _ => some (4, "boom")) 0 (buildCandidates PROXY_URL sampleMedia)) ++
        "\n\n" ++ "Gunakan tombol Download untuk download file, lalu putar dengan VLC.") := by
  have h := tryLoadWithFallback_exhausted PROXY_URL envFailAll (fun _ => some (4, "boom"))
    sampleMedia (fun _ _ => rfl)
  rw [h.1]
  exact ⟨rfl, rfl, rfl⟩

/-- Witness for C9 on the concrete sample descriptor. -/
theorem buildCandidates_size_witness :
    1 ≤ (buildCandidates PROXY_URL sampleMedia).length ∧
      (buildCandidates PROXY_URL sampleMedia).length ≤ 4 :=
  buildCandidates_size PROXY_URL sampleMedia (by decide)

/-- Counterexample to C7 as stated: if the clamped target has become
buffered by the time the 900 ms timer fires, the guard does NOT revert or
surface a notice even though the sink position (50) is more than 2 seconds
from the clamped target (20) and range support is still unconfirmed — the
source rechecks `bufferedContains(t)` inside the timer callback. -/
theorem safeSeek_no_revert_when_buffered_at_check :
    safeSeek (some 100) 5 [] false { pos := 50, buffered := [(19, 21)], rangeOK := false } 20 =
      { immediateSeek := some (clampQ 20 0 100), recordedPre := some 5, finalPos := 50
        notice := none, timerDelayMs := some 900 } ∧
    ¬(|(50 : ℚ) - clampQ 20 0 100| ≤ 2) := by
  have hclamp : clampQ 20 0 100 = 20 := by norm_num [clampQ]
  constructor
  · have hb0 : bufferedContains [] (clampQ 20 0 100) = false := rfl
    have hbA : bufferedContains [((19 : ℚ), (21 : ℚ))] (clampQ 20 0 100) = true := by
      rw [hclamp]
      norm_num [bufferedContains]
    simp only [safeSeek, hb0, Bool.false_or, Bool.false_eq_true, if_false, hbA,
      Bool.not_true, Bool.and_false, Bool.false_and, if_false]
  · rw [hclamp]
    norm_num
